import Mathlib

/-!
Verification of the DevAtlas programming-glossary server (src/server.js).

The file shallowly embeds the Term Query Engine of `server.js`: the catalog
data model, the `/api/terms` filter-and-paginate pipeline, the
`/api/terms/:id` relatedness resolver, the `/api/stats` aggregator and the
`/api/random` sampler.  JavaScript arrays become Lean lists, JS strings
become Lean `String` (a structure over `List Char`), `Array.prototype.slice`
and `String.prototype.includes` are given explicit executable models, and
the sampler's `sort(() => 0.5 - Math.random())` shuffle is modelled by an
arbitrary permutation of the catalog (JS `sort` always returns a
permutation of its input, whatever the comparator does).
-/

/-- One glossary record, after the fields of the object literals in
`programmingTermsDatabase` (src/server.js).  The source field `example`
is renamed `exampleCode` because `example` is a Lean keyword; the engine
never reads it. -/
structure Term where
  id : String
  name : String
  chinese : String
  description : String
  difficulty : String
  tags : List String
  exampleCode : String
  useCases : List String
  relatedTerms : List String
deriving DecidableEq

/-- The catalog: category name to term sequence, in declaration order
(JS object literals preserve string-key insertion order). -/
abbrev Database := List (String × List Term)

/-- `Object.values(programmingTermsDatabase).flat()` — the AllTerms view. -/
def allTerms (db : Database) : List Term :=
  (db.map (fun kv => kv.2)).flatten

/-- `programmingTermsDatabase[category] || []` — a category's own term
sequence, or the empty sequence for an unknown name.  This is the
successful branch of the lookup only: a non-key name that collides with an
inherited `Object.prototype` property instead makes the handler throw;
`categoryTermsJS` below models the lookup in full. -/
def termsOf (db : Database) (c : String) : List Term :=
  match db.find? (fun kv => kv.1 == c) with
  | some kv => kv.2
  | none => []

/-- JS `String.prototype.toLowerCase`, restricted to the ASCII range
(`Char.toLower` maps only `A`–`Z`); the catalog's non-ASCII text is
caseless, so this captures every comparison the engine performs. -/
def jsToLower (s : String) : String :=
  ⟨s.data.map Char.toLower⟩

/-- Does `n` occur at the head of `h`? (helper for `occursIn`). -/
def leadsWith : List Char → List Char → Bool
  | [], _ => true
  | _ :: _, [] => false
  | a :: as, b :: bs => a == b && leadsWith as bs

/-- Does `n` occur as a contiguous run somewhere in `h`? -/
def occursIn (n : List Char) : List Char → Bool
  | [] => n.isEmpty
  | c :: t => leadsWith n (c :: t) || occursIn n t

/-- JS `hay.includes(needle)` on strings. -/
def jsIncludes (hay needle : String) : Bool :=
  occursIn needle.data hay.data

/-- `needle` is a (contiguous) substring of `hay`: the specification-level
reading of `includes`. -/
def SubstringOf (needle hay : String) : Prop :=
  ∃ p q, hay.data = p ++ needle.data ++ q

/-- Index normalisation of JS `Array.prototype.slice`: a negative index
counts from the end, and the result is clamped to `[0, n]`. -/
def jsIndex (n : Nat) (i : Int) : Nat :=
  if i < 0 then ((n : Int) + i).toNat else (min i (n : Int)).toNat

/-- JS `Array.prototype.slice(start, end)`. -/
def jsSlice {α : Type} (l : List α) (s e : Int) : List α :=
  (l.drop (jsIndex l.length s)).take (jsIndex l.length e - jsIndex l.length s)

/-- The query parameters of `GET /api/terms`, as the handler receives them:
absent parameters are `none`, `limit`/`offset` are the handler's
`parseInt` results (defaults 50 and 0 substituted by the destructuring). -/
structure QueryParams where
  category : Option String
  difficulty : Option String
  search : Option String
  limit : Int
  offset : Int

/-- The working set after the category step:
`if (category && category !== 'all') filteredTerms = programmingTermsDatabase[category] || []`.
A JS string is truthy exactly when non-empty.  Like `termsOf`, this is the
successful branch only; `workingSetJS` below keeps the error outcome of a
prototype-chain hit. -/
def workingSet (db : Database) : Option String → List Term
  | some c => if c = "" ∨ c = "all" then allTerms db else termsOf db c
  | none => allTerms db

/-- The difficulty step:
`if (difficulty && difficulty !== 'all') filter(term => term.difficulty === difficulty)`. -/
def afterDifficulty (dOpt : Option String) (l : List Term) : List Term :=
  match dOpt with
  | some d => if d = "" ∨ d = "all" then l else l.filter (fun t => t.difficulty == d)
  | none => l

/-- The search predicate of the handler (with `searchLower = search.toLowerCase()`):
`name.toLowerCase().includes(searchLower) || chinese.includes(search) ||
 description.toLowerCase().includes(searchLower) || tags.some(tag => tag.toLowerCase().includes(searchLower))`. -/
def matchesSearch (s : String) (t : Term) : Bool :=
  let searchLower := jsToLower s
  jsIncludes (jsToLower t.name) searchLower ||
  jsIncludes t.chinese s ||
  jsIncludes (jsToLower t.description) searchLower ||
  t.tags.any (fun tag => jsIncludes (jsToLower tag) searchLower)

/-- The search step: `if (search) filteredTerms = filteredTerms.filter(...)`. -/
def afterSearch (sOpt : Option String) (l : List Term) : List Term :=
  match sOpt with
  | some s => if s = "" then l else l.filter (matchesSearch s)
  | none => l

/-- The fully filtered sequence, before pagination. -/
def filteredTerms (db : Database) (p : QueryParams) : List Term :=
  afterSearch p.search (afterDifficulty p.difficulty (workingSet db p.category))

/-- The response body of `GET /api/terms`. -/
structure TermsResponse where
  terms : List Term
  total : Nat
  hasMore : Bool
  categories : List String
  difficulties : List String
deriving DecidableEq

/-- The `/api/terms` handler: filter, then
`slice(parseInt(offset), parseInt(offset) + parseInt(limit))`. -/
def getTerms (db : Database) (p : QueryParams) : TermsResponse :=
  let filtered := filteredTerms db p
  let startIndex := p.offset
  let endIndex := p.offset + p.limit
  { terms := jsSlice filtered startIndex endIndex
    total := filtered.length
    hasMore := decide (endIndex < (filtered.length : Int))
    categories := db.map (fun kv => kv.1)
    difficulties := ["beginner", "intermediate", "advanced"] }

/-- `allTerms.find(t => t.id === req.params.id)`. -/
def findTerm (db : Database) (tid : String) : Option Term :=
  (allTerms db).find? (fun t => t.id == tid)

/-- The relatedness test of `/api/terms/:id`:
`t.tags.some(tag => term.tags.includes(tag)) || term.relatedTerms?.some(related => t.name.includes(related))`. -/
def isRelated (src t : Term) : Bool :=
  t.tags.any (fun tag => src.tags.contains tag) ||
  src.relatedTerms.any (fun r => jsIncludes t.name r)

/-- The matched related terms:
`allTerms.filter(t => t.id !== term.id && (...)).slice(0, 5)`. -/
def relatedOf (db : Database) (src : Term) : List Term :=
  jsSlice ((allTerms db).filter (fun t => !(t.id == src.id) && isRelated src t)) 0 5

/-- The `{id, name, chinese}` projection of a related term. -/
structure RelatedBrief where
  id : String
  name : String
  chinese : String
deriving DecidableEq

/-- The success body of `GET /api/terms/:id`: the spread `{...term}` with the
`relatedTerms` key overwritten by the projected matches. -/
structure TermDetail where
  id : String
  name : String
  chinese : String
  description : String
  difficulty : String
  tags : List String
  exampleCode : String
  useCases : List String
  relatedTerms : List RelatedBrief
deriving DecidableEq

/-- The `/api/terms/:id` handler (`none` models the 404 branch). -/
def getTermDetail (db : Database) (tid : String) : Option TermDetail :=
  (findTerm db tid).map (fun term =>
    { id := term.id
      name := term.name
      chinese := term.chinese
      description := term.description
      difficulty := term.difficulty
      tags := term.tags
      exampleCode := term.exampleCode
      useCases := term.useCases
      relatedTerms := (relatedOf db term).map (fun t => ⟨t.id, t.name, t.chinese⟩) })

/-- The `/api/stats` body; `byDifficulty` is flattened into its three fixed
buckets, and the wall-clock `lastUpdated` field is outside the embedding. -/
structure Stats where
  totalTerms : Nat
  categories : Nat
  beginner : Nat
  intermediate : Nat
  advanced : Nat
  byCategory : List (String × Nat)

/-- The `/api/stats` handler. -/
def getStats (db : Database) : Stats :=
  { totalTerms := (allTerms db).length
    categories := db.length
    beginner := ((allTerms db).filter (fun t => t.difficulty == "beginner")).length
    intermediate := ((allTerms db).filter (fun t => t.difficulty == "intermediate")).length
    advanced := ((allTerms db).filter (fun t => t.difficulty == "advanced")).length
    byCategory := db.map (fun kv => (kv.1, kv.2.length)) }

/-- The `/api/random` handler after the shuffle:
`[...allTerms].sort(() => 0.5 - Math.random()).slice(0, parseInt(count))`.
The shuffled copy is passed in explicitly; theorems assume it is a
permutation of `allTerms`, which JS `sort` guarantees for any comparator. -/
def randomSample (shuffled : List Term) (count : Int) : List Term :=
  jsSlice shuffled 0 count

/-- The property names a bare object literal inherits from
`Object.prototype`, every one bound to a truthy value (a method, or the
prototype object itself for `__proto__`).  A JS read
`programmingTermsDatabase[c]` for such a `c` that is not an own key walks
the prototype chain and returns that truthy non-array value instead of
`undefined`. -/
def protoProps : List String :=
  ["constructor", "hasOwnProperty", "isPrototypeOf", "propertyIsEnumerable",
   "toLocaleString", "toString", "valueOf", "__defineGetter__",
   "__defineSetter__", "__lookupGetter__", "__lookupSetter__", "__proto__"]

/-- `programmingTermsDatabase[category] || []` with JS property lookup
modelled in full: an own key yields the category's array; a missing key
yields `[]` through the `|| []` default — unless the name collides with an
inherited `Object.prototype` property, in which case the lookup returns
that truthy non-array value, `|| []` does not engage, and the handler
later throws `TypeError` on `.filter`/`.slice`.  `none` models the
non-array outcome. -/
def categoryTermsJS (db : Database) (c : String) : Option (List Term) :=
  match db.find? (fun kv => kv.1 == c) with
  | some kv => some kv.2
  | none => if protoProps.contains c then none else some []

/-- The working set under the full lookup model: `none` when the category
name hits the prototype chain. -/
def workingSetJS (db : Database) : Option String → Option (List Term)
  | some c => if c = "" ∨ c = "all" then some (allTerms db) else categoryTermsJS db c
  | none => some (allTerms db)

/-- The `/api/terms` handler under the full lookup model: `none` is the
thrown `TypeError` (the pagination `slice` runs unconditionally, so a
non-array working set always throws and the request ends in HTTP 500). -/
def getTermsJS (db : Database) (p : QueryParams) : Option TermsResponse :=
  (workingSetJS db p.category).map (fun ws =>
    let filtered := afterSearch p.search (afterDifficulty p.difficulty ws)
    { terms := jsSlice filtered p.offset (p.offset + p.limit)
      total := filtered.length
      hasMore := decide (p.offset + p.limit < (filtered.length : Int))
      categories := db.map (fun kv => kv.1)
      difficulties := ["beginner", "intermediate", "advanced"] })

/-! ### Helper lemmas about the embedded JS primitives -/

lemma leadsWith_iff (n : List Char) : ∀ h : List Char,
    leadsWith n h = true ↔ ∃ q, h = n ++ q := by
  induction n with
  | nil =>
    intro h
    simp [leadsWith]
  | cons a as ih =>
    intro h
    cases h with
    | nil => simp [leadsWith]
    | cons b bs =>
      simp only [leadsWith, Bool.and_eq_true, beq_iff_eq, ih bs, List.cons_append,
        List.cons.injEq]
      constructor
      · rintro ⟨hab, q, rfl⟩
        exact ⟨q, hab.symm, rfl⟩
      · rintro ⟨q, hab, rfl⟩
        exact ⟨hab.symm, q, rfl⟩

lemma occursIn_iff (n : List Char) : ∀ h : List Char,
    occursIn n h = true ↔ ∃ p q, h = p ++ n ++ q := by
  intro h
  induction h with
  | nil =>
    simp only [occursIn, List.isEmpty_iff]
    constructor
    · rintro rfl
      exact ⟨[], [], rfl⟩
    · rintro ⟨p, q, hpq⟩
      rcases List.append_eq_nil.mp hpq.symm with ⟨h1, h2⟩
      exact (List.append_eq_nil.mp h1).2
  | cons c t ih =>
    simp only [occursIn, Bool.or_eq_true, leadsWith_iff, ih]
    constructor
    · rintro (⟨q, hq⟩ | ⟨p, q, rfl⟩)
      · exact ⟨[], q, by simp [hq]⟩
      · exact ⟨c :: p, q, rfl⟩
    · rintro ⟨p, q, hpq⟩
      cases p with
      | nil => exact Or.inl ⟨q, by simpa using hpq⟩
      | cons x xs =>
        simp only [List.cons_append, List.cons.injEq] at hpq
        exact Or.inr ⟨xs, q, hpq.2⟩

lemma jsIncludes_iff (hay needle : String) :
    jsIncludes hay needle = true ↔ SubstringOf needle hay := by
  unfold jsIncludes SubstringOf
  exact occursIn_iff needle.data hay.data

instance (needle hay : String) : Decidable (SubstringOf needle hay) :=
  decidable_of_iff _ (jsIncludes_iff hay needle)

lemma jsIncludes_nil (hay : String) : jsIncludes hay "" = true := by
  unfold jsIncludes
  cases hay.data <;> simp [occursIn, leadsWith]

lemma matchesSearch_empty (t : Term) : matchesSearch "" t = true := by
  unfold matchesSearch
  have : jsToLower "" = "" := rfl
  rw [this, jsIncludes_nil]
  simp

lemma jsIndex_nonneg (n : Nat) (i : Int) (hi : 0 ≤ i) :
    jsIndex n i = (min i (n : Int)).toNat := by
  unfold jsIndex
  rw [if_neg (by omega)]

lemma jsIndex_zero (n : Nat) : jsIndex n 0 = 0 := by
  unfold jsIndex
  rw [if_neg (by omega)]
  omega

lemma jsSlice_sublist {α : Type} (l : List α) (s e : Int) :
    List.Sublist (jsSlice l s e) l := by
  unfold jsSlice
  exact ((l.drop _).take_sublist _).trans (l.drop_sublist _)

lemma jsSlice_length_nonneg {α : Type} (l : List α) (s e : Int)
    (hs : 0 ≤ s) (he : 0 ≤ e) :
    ((jsSlice l s e).length : Int) = max 0 (min e l.length - min s l.length) := by
  unfold jsSlice
  rw [jsIndex_nonneg _ _ hs, jsIndex_nonneg _ _ he]
  simp only [List.length_take, List.length_drop]
  omega

lemma jsSlice_zero_neg {α : Type} (l : List α) (e : Int) (he : e < 0) :
    (jsSlice l 0 e).length = ((l.length : Int) + e).toNat := by
  unfold jsSlice
  rw [jsIndex_zero]
  unfold jsIndex
  rw [if_pos he]
  simp only [List.length_take, List.length_drop]
  omega

lemma jsSlice_zero_big {α : Type} (l : List α) (e : Int) (he : (l.length : Int) ≤ e) :
    jsSlice l 0 e = l := by
  unfold jsSlice
  rw [jsIndex_zero, jsIndex_nonneg _ _ (by omega), min_eq_right he]
  simp

lemma afterDifficulty_sublist (dOpt : Option String) (l : List Term) :
    List.Sublist (afterDifficulty dOpt l) l := by
  cases dOpt with
  | none => exact List.Sublist.refl l
  | some d =>
    show List.Sublist (if d = "" ∨ d = "all" then l else l.filter _) l
    split
    · exact List.Sublist.refl l
    · exact l.filter_sublist

lemma afterSearch_sublist (sOpt : Option String) (l : List Term) :
    List.Sublist (afterSearch sOpt l) l := by
  cases sOpt with
  | none => exact List.Sublist.refl l
  | some s =>
    show List.Sublist (if s = "" then l else l.filter _) l
    split
    · exact List.Sublist.refl l
    · exact l.filter_sublist

lemma filteredTerms_sublist (db : Database) (p : QueryParams) :
    List.Sublist (filteredTerms db p) (workingSet db p.category) := by
  unfold filteredTerms
  exact (afterSearch_sublist p.search _).trans (afterDifficulty_sublist p.difficulty _)

lemma afterSearch_nil (sOpt : Option String) : afterSearch sOpt [] = [] := by
  cases sOpt with
  | none => rfl
  | some s =>
    show (if s = "" then [] else List.filter _ []) = []
    split <;> simp

lemma termsOf_unknown (db : Database) (c : String)
    (h : ∀ kv ∈ db, kv.1 ≠ c) : termsOf db c = [] := by
  unfold termsOf
  rw [List.find?_eq_none.mpr]
  intro kv hkv
  simpa using h kv hkv

lemma afterDifficulty_nil (dOpt : Option String) : afterDifficulty dOpt [] = [] := by
  cases dOpt with
  | none => rfl
  | some d =>
    show (if d = "" ∨ d = "all" then [] else List.filter _ []) = []
    split <;> simp

lemma afterSearch_some (s : String) (l : List Term) :
    afterSearch (some s) l = l.filter (matchesSearch s) := by
  show (if s = "" then l else l.filter (matchesSearch s)) = _
  by_cases hs : s = ""
  · rw [if_pos hs, hs]
    exact (List.filter_eq_self.mpr (fun a _ => matchesSearch_empty a)).symm
  · rw [if_neg hs]

lemma afterSearch_none (l : List Term) : afterSearch none l = l := rfl

lemma jsSlice_nil {α : Type} (s e : Int) : jsSlice ([] : List α) s e = [] := by
  unfold jsSlice
  simp

lemma jsSlice_zero_nonneg {α : Type} (l : List α) (e : Int) (he : 0 ≤ e) :
    jsSlice l 0 e = l.take e.toNat := by
  unfold jsSlice
  rw [jsIndex_zero, jsIndex_nonneg _ _ he]
  simp only [Nat.sub_zero, List.drop_zero]
  rcases le_total e (l.length : Int) with h | h
  · rw [min_eq_left h]
  · rw [min_eq_right h]
    have h1 : ((l.length : Int)).toNat = l.length := by omega
    rw [h1, List.take_length]
    exact (List.take_of_length_le (by omega)).symm

/-- The difficulty step, stated as the condition a term must pass:
absent or `""`/`"all"` lets everything through, otherwise strict equality. -/
def DiffOK (dOpt : Option String) (t : Term) : Prop :=
  match dOpt with
  | some d => d = "" ∨ d = "all" ∨ t.difficulty = d
  | none => True

lemma mem_afterDifficulty (dOpt : Option String) (l : List Term) (t : Term) :
    t ∈ afterDifficulty dOpt l ↔ t ∈ l ∧ DiffOK dOpt t := by
  cases dOpt with
  | none => simp [afterDifficulty, DiffOK]
  | some d =>
    show t ∈ (if d = "" ∨ d = "all" then l else l.filter _) ↔ _
    by_cases h : d = "" ∨ d = "all"
    · rw [if_pos h]
      simp only [DiffOK]
      tauto
    · rw [if_neg h]
      simp only [List.mem_filter, beq_iff_eq, DiffOK]
      tauto

lemma getTerms_terms (db : Database) (p : QueryParams) :
    (getTerms db p).terms = jsSlice (filteredTerms db p) p.offset (p.offset + p.limit) :=
  rfl

lemma getTerms_total (db : Database) (p : QueryParams) :
    (getTerms db p).total = (filteredTerms db p).length :=
  rfl

lemma getTerms_hasMore (db : Database) (p : QueryParams) :
    (getTerms db p).hasMore
      = decide (p.offset + p.limit < ((filteredTerms db p).length : Int)) :=
  rfl

/-- Counting the three fixed difficulty buckets never exceeds the list length,
with equality exactly when every entry lands in a bucket. -/
lemma count_difficulty (l : List Term) :
    ((l.filter (fun t => t.difficulty == "beginner")).length +
       (l.filter (fun t => t.difficulty == "intermediate")).length +
       (l.filter (fun t => t.difficulty == "advanced")).length ≤ l.length) ∧
    ((l.filter (fun t => t.difficulty == "beginner")).length +
       (l.filter (fun t => t.difficulty == "intermediate")).length +
       (l.filter (fun t => t.difficulty == "advanced")).length = l.length ↔
      ∀ t ∈ l, t.difficulty = "beginner" ∨ t.difficulty = "intermediate" ∨
        t.difficulty = "advanced") := by
  induction l with
  | nil => simp
  | cons t l ih =>
    obtain ⟨ih1, ih2⟩ := ih
    have step : ∀ d : String, t.difficulty = d →
        List.filter (fun x => x.difficulty == d) (t :: l)
          = t :: List.filter (fun x => x.difficulty == d) l := by
      intro d hd
      rw [List.filter_cons, if_pos (by simp [hd])]
    have skip : ∀ d : String, ¬t.difficulty = d →
        List.filter (fun x => x.difficulty == d) (t :: l)
          = List.filter (fun x => x.difficulty == d) l := by
      intro d hd
      rw [List.filter_cons, if_neg (by simp [hd])]
    by_cases hb : t.difficulty = "beginner"
    · have hi : ¬t.difficulty = "intermediate" := by rw [hb]; decide
      have ha : ¬t.difficulty = "advanced" := by rw [hb]; decide
      rw [step _ hb, skip _ hi, skip _ ha]
      simp only [List.length_cons, List.forall_mem_cons]
      refine ⟨by omega, ?_⟩
      rw [show ∀ a b c n : Nat, (a + 1 + b + c = n + 1 ↔ a + b + c = n) from by omega, ih2]
      simp [hb]
    · by_cases hi : t.difficulty = "intermediate"
      · have ha : ¬t.difficulty = "advanced" := by rw [hi]; decide
        rw [skip _ hb, step _ hi, skip _ ha]
        simp only [List.length_cons, List.forall_mem_cons]
        refine ⟨by omega, ?_⟩
        rw [show ∀ a b c n : Nat, (a + (b + 1) + c = n + 1 ↔ a + b + c = n) from by omega, ih2]
        simp [hi]
      · by_cases ha : t.difficulty = "advanced"
        · rw [skip _ hb, skip _ hi, step _ ha]
          simp only [List.length_cons, List.forall_mem_cons]
          refine ⟨by omega, ?_⟩
          rw [show ∀ a b c n : Nat, (a + b + (c + 1) = n + 1 ↔ a + b + c = n) from by omega, ih2]
          simp [ha]
        · rw [skip _ hb, skip _ hi, skip _ ha]
          simp only [List.length_cons, List.forall_mem_cons]
          refine ⟨by omega, ?_⟩
          constructor
          · intro h
            omega
          · rintro ⟨hcase, -⟩
            exact absurd hcase (by tauto)

/-! ### Concrete catalogs for witnesses and counterexamples

`exCatalog` is the two-category example scenario of the specification
(§8): `a1` closure and `a2` hoisting share the tag `scope` in `catA`,
`b1` jsx sits alone in `catB`.  `dupCatalog` extracts, verbatim (opaque
`example` blob elided), the two records of `programmingTermsDatabase`
that both carry the id `ds_1`: `machine_learning` in the `datascience`
category (src/server.js line 8243) and `array` in the `datastructures`
category (line 10625). -/

def termClosure : Term :=
  ⟨"a1", "closure", "闭包", "函数与其词法环境的组合", "intermediate",
    ["scope"], "", ["模块化"], ["scope", "hoisting"]⟩

def termHoisting : Term :=
  ⟨"a2", "hoisting", "变量提升", "声明移动到作用域顶部", "intermediate",
    ["scope"], "", ["调试"], ["closure"]⟩

def termJsx : Term :=
  ⟨"b1", "jsx", "JSX语法", "一种语法扩展", "beginner",
    ["rendering"], "", ["组件"], []⟩

def exCatalog : Database :=
  [("catA", [termClosure, termHoisting]), ("catB", [termJsx])]

def termMachineLearning : Term :=
  ⟨"ds_1", "machine_learning", "机器学习",
    "让计算机通过数据学习模式和做出预测的人工智能分支", "advanced",
    ["ai", "ml", "algorithms"], "",
    ["预测分析", "模式识别", "自动化决策", "数据挖掘"],
    ["supervised learning", "unsupervised learning", "neural networks",
      "feature engineering"]⟩

def termArray : Term :=
  ⟨"ds_1", "array", "数组",
    "存储相同类型元素的有序集合，通过索引访问元素", "beginner",
    ["data-structure", "collection", "indexed"], "",
    ["数据存储", "批量处理", "索引访问", "算法实现"],
    ["list", "index", "iteration", "collection"]⟩

def dupCatalog : Database :=
  [("datascience", [termMachineLearning]), ("datastructures", [termArray])]

/-- The whitespace test of JS `String.prototype.trim`, restricted to the
four common blanks. -/
def isSpaceChar (c : Char) : Bool :=
  c == ' ' || c == '\t' || c == '\n' || c == '\r'

/-- JS `String.prototype.trim`. -/
def trimWS (s : String) : String :=
  ⟨((s.data.dropWhile isSpaceChar).reverse.dropWhile isSpaceChar).reverse⟩

/-- The search keep-condition exactly as the specification words it
(§4.2): the *lowercase trimmed* query must occur in the name
(case-insensitively), the localized label (raw), the description
(case-insensitively), or some tag (case-insensitively).  Stated for
comparison with `matchesSearch`, which the handler actually computes
and which never trims. -/
def specSearchKeepTrimmed (s : String) (t : Term) : Bool :=
  let q := jsToLower (trimWS s)
  jsIncludes (jsToLower t.name) q ||
  jsIncludes t.chinese (trimWS s) ||
  jsIncludes (jsToLower t.description) q ||
  t.tags.any (fun tag => jsIncludes (jsToLower tag) q)

lemma getTermsJS_bridge (db : Database) (p : QueryParams)
    (h : workingSetJS db p.category = some (workingSet db p.category)) :
    getTermsJS db p = some (getTerms db p) := by
  unfold getTermsJS
  rw [h]
  rfl

/-! ### Claims -/

/-- C1 (amended: the replace-semantics holds when the category name is a
catalog key or at least does not collide with an inherited
`Object.prototype` property; at a colliding non-key name such as
`"constructor"` the JS lookup returns the truthy inherited value, `|| []`
does not engage, and the handler throws `TypeError` — see
`c1_counterexample`): with a category parameter given (a non-empty value,
JS truthiness), different from the literal `"all"`, and safe in that
sense, the working set of the query engine is exactly `termsOf` of that
category — the AllTerms view is replaced, not intersected — the request
succeeds, and every term of the returned page belongs to that category's
own sequence. -/
theorem c1_category_replaces_view (db : Database) (c : String)
    (dOpt sOpt : Option String) (lim off : Int)
    (h1 : c ≠ "") (h2 : c ≠ "all")
    (h3 : c ∉ protoProps ∨ ∃ kv ∈ db, kv.1 = c) :
    workingSetJS db (some c) = some (termsOf db c) ∧
    getTermsJS db ⟨some c, dOpt, sOpt, lim, off⟩
      = some (getTerms db ⟨some c, dOpt, sOpt, lim, off⟩) ∧
    ∀ t ∈ (getTerms db ⟨some c, dOpt, sOpt, lim, off⟩).terms, t ∈ termsOf db c := by
  have hwold : workingSet db (some c) = termsOf db c := by
    show (if c = "" ∨ c = "all" then allTerms db else termsOf db c) = termsOf db c
    rw [if_neg (by tauto)]
  have hws : workingSetJS db (some c) = some (termsOf db c) := by
    show (if c = "" ∨ c = "all" then some (allTerms db) else categoryTermsJS db c)
        = some (termsOf db c)
    rw [if_neg (by tauto)]
    unfold categoryTermsJS termsOf
    cases hfind : db.find? (fun kv => kv.1 == c) with
    | some kv => rfl
    | none =>
      rcases h3 with h3 | ⟨kv, hkv, hkc⟩
      · rw [if_neg (by simpa [List.contains, List.elem_iff] using h3)]
      · exact absurd hkc (by simpa using List.find?_eq_none.mp hfind kv hkv)
  have hbridge : getTermsJS db ⟨some c, dOpt, sOpt, lim, off⟩
      = some (getTerms db ⟨some c, dOpt, sOpt, lim, off⟩) :=
    getTermsJS_bridge db _ (by
      rw [show (⟨some c, dOpt, sOpt, lim, off⟩ : QueryParams).category = some c from rfl,
        hws, hwold])
  refine ⟨hws, hbridge, ?_⟩
  intro t ht
  have h4 : List.Sublist (getTerms db ⟨some c, dOpt, sOpt, lim, off⟩).terms
      (filteredTerms db ⟨some c, dOpt, sOpt, lim, off⟩) := by
    rw [getTerms_terms]
    exact jsSlice_sublist _ _ _
  have h5 : List.Sublist (filteredTerms db ⟨some c, dOpt, sOpt, lim, off⟩)
      (termsOf db c) := by
    have h6 := filteredTerms_sublist db ⟨some c, dOpt, sOpt, lim, off⟩
    rwa [show (⟨some c, dOpt, sOpt, lim, off⟩ : QueryParams).category = some c from rfl,
      hwold] at h6
  exact (h4.trans h5).subset ht

theorem c1_witness :
    workingSetJS exCatalog (some "catB") = some (termsOf exCatalog "catB") ∧
    getTermsJS exCatalog ⟨some "catB", none, none, 50, 0⟩
      = some (getTerms exCatalog ⟨some "catB", none, none, 50, 0⟩) ∧
    ∀ t ∈ (getTerms exCatalog ⟨some "catB", none, none, 50, 0⟩).terms,
      t ∈ termsOf exCatalog "catB" :=
  c1_category_replaces_view exCatalog "catB" none none 50 0 (by decide) (by decide)
    (Or.inl (by decide))

/-- C1, refutation of the claim as stated: at the category name
`"constructor"` — given, non-empty, not `"all"`, and no catalog key — the
lookup hits `Object.prototype.constructor`, so the working set is the
inherited non-array rather than `termsOf("constructor") = []`, and the
handler throws instead of answering. -/
theorem c1_counterexample :
    workingSetJS exCatalog (some "constructor")
      ≠ some (termsOf exCatalog "constructor") ∧
    getTermsJS exCatalog ⟨some "constructor", none, none, 50, 0⟩ = none := by
  decide

/-- C7: for every combination of filters, the filtered sequence is an
order-preserving subsequence (`List.Sublist`) of the working set, and the
returned page is in turn a subsequence of the filtered sequence: filtering
and pagination never reorder terms. -/
theorem c7_filtering_preserves_order (db : Database) (p : QueryParams) :
    List.Sublist (filteredTerms db p) (workingSet db p.category) ∧
    List.Sublist (getTerms db p).terms (filteredTerms db p) :=
  ⟨filteredTerms_sublist db p, by
    rw [getTerms_terms]
    exact jsSlice_sublist _ _ _⟩

/-- C9 (amended: the no-error guarantee needs the unknown category name
not to collide with an inherited `Object.prototype` property — at
`"constructor"`, `"toString"`, … the lookup returns the truthy inherited
value and the handler throws `TypeError` (HTTP 500), see
`c9_counterexample`): an unknown, non-colliding category name yields an
empty working set, a successful response, zero total and an empty page
rather than an error; and a difficulty value (given, non-empty, not
`"all"`) that no working-set term carries yields a successful response
with an empty page by strict equality. -/
theorem c9_unknown_yields_empty (db : Database) (cOpt dOpt sOpt : Option String)
    (lim off : Int) (c d : String) :
    (cOpt = some c → c ≠ "" → c ≠ "all" → c ∉ protoProps →
      (∀ kv ∈ db, kv.1 ≠ c) →
      workingSetJS db cOpt = some [] ∧
      getTermsJS db ⟨cOpt, dOpt, sOpt, lim, off⟩
        = some (getTerms db ⟨cOpt, dOpt, sOpt, lim, off⟩) ∧
      (getTerms db ⟨cOpt, dOpt, sOpt, lim, off⟩).total = 0 ∧
      (getTerms db ⟨cOpt, dOpt, sOpt, lim, off⟩).terms = []) ∧
    (dOpt = some d → d ≠ "" → d ≠ "all" →
      ∀ ws, workingSetJS db cOpt = some ws → (∀ t ∈ ws, t.difficulty ≠ d) →
      (getTermsJS db ⟨cOpt, dOpt, sOpt, lim, off⟩).map (fun r => r.terms)
          = some [] ∧
      (getTermsJS db ⟨cOpt, dOpt, sOpt, lim, off⟩).map (fun r => r.total)
          = some 0) := by
  constructor
  · rintro rfl h1 h2 hcp hk
    have hto : termsOf db c = [] := termsOf_unknown db c hk
    have hwold : workingSet db (some c) = [] := by
      show (if c = "" ∨ c = "all" then allTerms db else termsOf db c) = []
      rw [if_neg (by tauto), hto]
    have hws : workingSetJS db (some c) = some [] := by
      show (if c = "" ∨ c = "all" then some (allTerms db) else categoryTermsJS db c)
          = some []
      rw [if_neg (by tauto)]
      unfold categoryTermsJS
      rw [List.find?_eq_none.mpr (fun kv hkv => by simpa using hk kv hkv),
        if_neg (by simpa [List.contains, List.elem_iff] using hcp)]
    have hfil : filteredTerms db ⟨some c, dOpt, sOpt, lim, off⟩ = [] := by
      show afterSearch sOpt (afterDifficulty dOpt (workingSet db (some c))) = []
      rw [hwold, afterDifficulty_nil, afterSearch_nil]
    refine ⟨hws, ?_, ?_, ?_⟩
    · exact getTermsJS_bridge db _ (by
        rw [show (⟨some c, dOpt, sOpt, lim, off⟩ : QueryParams).category = some c from rfl,
          hws, hwold])
    · rw [getTerms_total, hfil]
      rfl
    · rw [getTerms_terms, hfil, jsSlice_nil]
  · rintro rfl h1 h2 ws hws hd
    have hstep : afterDifficulty (some d) ws = [] := by
      show (if d = "" ∨ d = "all" then ws else List.filter _ ws) = []
      rw [if_neg (by tauto)]
      exact List.filter_eq_nil_iff.mpr (fun t ht => by simpa using hd t ht)
    have hfil : afterSearch sOpt (afterDifficulty (some d) ws) = [] := by
      rw [hstep, afterSearch_nil]
    unfold getTermsJS
    rw [show (⟨cOpt, some d, sOpt, lim, off⟩ : QueryParams).category = cOpt from rfl, hws]
    constructor
    · show some (jsSlice (afterSearch sOpt (afterDifficulty (some d) ws)) off (off + lim))
          = some []
      rw [hfil, jsSlice_nil]
    · show some ((afterSearch sOpt (afterDifficulty (some d) ws)).length) = some 0
      rw [hfil]
      rfl

theorem c9_witness :
    (workingSetJS exCatalog (some "nosuch") = some [] ∧
      getTermsJS exCatalog ⟨some "nosuch", none, none, 50, 0⟩
        = some (getTerms exCatalog ⟨some "nosuch", none, none, 50, 0⟩) ∧
      (getTerms exCatalog ⟨some "nosuch", none, none, 50, 0⟩).total = 0 ∧
      (getTerms exCatalog ⟨some "nosuch", none, none, 50, 0⟩).terms = []) ∧
    ((getTermsJS exCatalog ⟨none, some "expert", none, 50, 0⟩).map (fun r => r.terms)
        = some [] ∧
      (getTermsJS exCatalog ⟨none, some "expert", none, 50, 0⟩).map (fun r => r.total)
        = some 0) :=
  ⟨(c9_unknown_yields_empty exCatalog (some "nosuch") none none 50 0 "nosuch" "x").1
      rfl (by decide) (by decide) (by decide) (by decide),
    (c9_unknown_yields_empty exCatalog none (some "expert") none 50 0 "x" "expert").2
      rfl (by decide) (by decide) (allTerms exCatalog) rfl (by decide)⟩

/-- C9, refutation of the claim as stated: `"constructor"` is an unknown
category name (no catalog key matches it), yet the request errors — the
lookup walks the prototype chain, the working set becomes a non-array and
the handler throws `TypeError` (HTTP 500) — instead of yielding an empty
working set and an empty page. -/
theorem c9_counterexample :
    (∀ kv ∈ exCatalog, kv.1 ≠ "constructor") ∧
    workingSetJS exCatalog (some "constructor") = none ∧
    getTermsJS exCatalog ⟨some "constructor", none, none, 50, 0⟩ = none := by
  decide

/-- C3 (amended: for non-negative integer `limit` and `offset`; a negative
value reaches JS `slice`'s end-relative indexing and breaks the formula,
see `c3_counterexample`): the page length is
`min(limit, max(0, total - offset))` and `hasMore` is `offset + limit < total`,
where `total` counts the filtered sequence before pagination. -/
theorem c3_pagination_formula (db : Database) (p : QueryParams)
    (hl : 0 ≤ p.limit) (ho : 0 ≤ p.offset) :
    (((getTerms db p).terms.length : Int)
        = min p.limit (max 0 (((getTerms db p).total : Int) - p.offset))) ∧
    ((getTerms db p).hasMore = true ↔
        p.offset + p.limit < ((getTerms db p).total : Int)) := by
  rw [getTerms_terms, getTerms_total, getTerms_hasMore]
  constructor
  · rw [jsSlice_length_nonneg _ _ _ ho (by omega)]
    omega
  · simp

theorem c3_witness :
    (((getTerms exCatalog ⟨none, none, none, 2, 1⟩).terms.length : Int)
        = min (2 : Int)
            (max 0 (((getTerms exCatalog ⟨none, none, none, 2, 1⟩).total : Int) - 1))) ∧
    ((getTerms exCatalog ⟨none, none, none, 2, 1⟩).hasMore = true ↔
        (1 : Int) + 2 < ((getTerms exCatalog ⟨none, none, none, 2, 1⟩).total : Int)) :=
  c3_pagination_formula exCatalog ⟨none, none, none, 2, 1⟩ (by decide) (by decide)

/-- C3, refutation of the claim for arbitrary integers: at `offset = -1`,
`limit = 50` on the three-term example catalog the page has 1 element
(JS `slice(-1, 49)` starts one before the end) while the claimed formula
gives `min(50, max(0, 3 + 1)) = 4`. -/
theorem c3_counterexample :
    ¬ (((getTerms exCatalog ⟨none, none, none, 50, -1⟩).terms.length : Int)
        = min (50 : Int)
            (max 0 (((getTerms exCatalog ⟨none, none, none, 50, -1⟩).total : Int)
              - (-1)))) := by
  decide

/-- C8: the three difficulty buckets of the statistics aggregator sum to at
most the total term count, with equality exactly when every catalog term
carries one of the three recognized difficulty values; a term with any
other value increments no bucket and is counted at most once. -/
theorem c8_difficulty_buckets (db : Database) :
    (getStats db).beginner + (getStats db).intermediate + (getStats db).advanced
        ≤ (getStats db).totalTerms ∧
    ((getStats db).beginner + (getStats db).intermediate + (getStats db).advanced
          = (getStats db).totalTerms ↔
      ∀ t ∈ allTerms db, t.difficulty = "beginner" ∨
        t.difficulty = "intermediate" ∨ t.difficulty = "advanced") :=
  count_difficulty (allTerms db)

/-- C2 (amended: the query is lowercased but *not* trimmed — see
`c2_counterexample`): with a non-empty search parameter, a term is in the
filtered result exactly when it is in the working set, passes the
difficulty condition, and the lowercase query occurs in its name
(case-insensitively), or the raw query occurs in its localized label
(case-sensitively), or the lowercase query occurs in its description
(case-insensitively) or in some tag (case-insensitively): an OR across
fields, ANDed with the category and difficulty filters. -/
theorem c2_search_membership (db : Database) (cOpt dOpt : Option String)
    (s : String) (lim off : Int) (hs : s ≠ "") (t : Term) :
    t ∈ filteredTerms db ⟨cOpt, dOpt, some s, lim, off⟩ ↔
      t ∈ workingSet db cOpt ∧ DiffOK dOpt t ∧
        (SubstringOf (jsToLower s) (jsToLower t.name) ∨
         SubstringOf s t.chinese ∨
         SubstringOf (jsToLower s) (jsToLower t.description) ∨
         ∃ tag ∈ t.tags, SubstringOf (jsToLower s) (jsToLower tag)) := by
  show t ∈ afterSearch (some s) (afterDifficulty dOpt (workingSet db cOpt)) ↔ _
  rw [afterSearch_some, List.mem_filter, mem_afterDifficulty]
  have hm : matchesSearch s t = true ↔
      (SubstringOf (jsToLower s) (jsToLower t.name) ∨
       SubstringOf s t.chinese ∨
       SubstringOf (jsToLower s) (jsToLower t.description) ∨
       ∃ tag ∈ t.tags, SubstringOf (jsToLower s) (jsToLower tag)) := by
    unfold matchesSearch
    simp only [Bool.or_eq_true, jsIncludes_iff, List.any_eq_true]
    tauto
  rw [hm]
  tauto

theorem c2_witness :
    termClosure ∈ filteredTerms exCatalog ⟨none, none, some "scope", 50, 0⟩ :=
  (c2_search_membership exCatalog none none "scope" 50 0 (by decide) termClosure).mpr
    ⟨by decide, trivial,
      Or.inr (Or.inr (Or.inr ⟨"scope", by decide, by decide⟩))⟩

/-- C2, refutation of the claim as stated: for the query `"closure "`
(trailing blank) the specification's keep-condition — which trims —
accepts the closure term, which sits in the working set, yet the handler,
which never trims, returns an empty result: the filtered result is not
"exactly" the terms passing the trimmed condition. -/
theorem c2_counterexample :
    termClosure ∈ workingSet exCatalog none ∧
    specSearchKeepTrimmed "closure " termClosure = true ∧
    filteredTerms exCatalog ⟨none, none, some "closure ", 50, 0⟩ = [] ∧
    (getTerms exCatalog ⟨none, none, some "closure ", 50, 0⟩).terms = [] := by
  decide

/-- C6 (amended: a category filter replaces only the *base* working set; a
simultaneous search parameter still filters within the selected category's
terms, so two queries on the same category may return different terms —
see `c6_counterexample`): with category fixed, the filtered result with a
search string is exactly the search-filter of the filtered result without
one, hence an order-preserving subsequence of it. -/
theorem c6_search_filters_within_category (db : Database) (c : String)
    (dOpt : Option String) (s : String) (lim off : Int) :
    filteredTerms db ⟨some c, dOpt, some s, lim, off⟩
        = (filteredTerms db ⟨some c, dOpt, none, lim, off⟩).filter (matchesSearch s) ∧
    List.Sublist (filteredTerms db ⟨some c, dOpt, some s, lim, off⟩)
      (filteredTerms db ⟨some c, dOpt, none, lim, off⟩) := by
  have key : filteredTerms db ⟨some c, dOpt, some s, lim, off⟩
      = (filteredTerms db ⟨some c, dOpt, none, lim, off⟩).filter (matchesSearch s) := by
    show afterSearch (some s) (afterDifficulty dOpt (workingSet db (some c)))
        = (afterSearch none (afterDifficulty dOpt (workingSet db (some c)))).filter
            (matchesSearch s)
    rw [afterSearch_some, afterSearch_none]
  refine ⟨key, ?_⟩
  rw [key]
  exact List.filter_sublist _

/-- C6, refutation of the claim as stated: on the specification's own
example catalog, `query(category="catB", search="scope")` returns no terms
while `query(category="catB")` returns the jsx term — the search parameter
is not ignored under a category filter. -/
theorem c6_counterexample :
    (getTerms exCatalog ⟨some "catB", none, some "scope", 50, 0⟩).terms
      ≠ (getTerms exCatalog ⟨some "catB", none, none, 50, 0⟩).terms := by
  decide

/-- C4: for a term id found in AllTerms, the resolver returns exactly the
first 5 (or fewer) terms of AllTerms, in AllTerms order, whose id differs
from the source's and which share a tag with the source or whose name
contains one of the source's related-term hint strings; the result never
contains the source term and never exceeds 5 entries. -/
theorem c4_relatedness_resolver (db : Database) (tid : String) (src : Term)
    (h : findTerm db tid = some src) :
    (relatedOf db src).length ≤ 5 ∧
    src ∉ relatedOf db src ∧
    (∀ t ∈ relatedOf db src, t ≠ src ∧ t.id ≠ src.id ∧
      ((∃ tag ∈ t.tags, tag ∈ src.tags) ∨
        ∃ r ∈ src.relatedTerms, SubstringOf r t.name)) ∧
    relatedOf db src
      = ((allTerms db).filter (fun t =>
          decide (t.id ≠ src.id ∧ ((∃ tag ∈ t.tags, tag ∈ src.tags) ∨
            ∃ r ∈ src.relatedTerms, SubstringOf r t.name)))).take 5 := by
  have hpred : ∀ t : Term, (!(t.id == src.id) && isRelated src t)
      = decide (t.id ≠ src.id ∧ ((∃ tag ∈ t.tags, tag ∈ src.tags) ∨
          ∃ r ∈ src.relatedTerms, SubstringOf r t.name)) := by
    intro t
    apply Bool.eq_iff_iff.mpr
    unfold isRelated
    simp only [Bool.and_eq_true, Bool.not_eq_true', beq_eq_false_iff_ne, ne_eq,
      Bool.or_eq_true, List.any_eq_true, jsIncludes_iff, decide_eq_true_eq,
      List.contains, List.elem_iff, and_congr_right_iff]
  have hrel : relatedOf db src
      = ((allTerms db).filter (fun t => !(t.id == src.id) && isRelated src t)).take 5 := by
    unfold relatedOf
    exact jsSlice_zero_nonneg _ 5 (by omega)
  have hfil : ((allTerms db).filter (fun t => !(t.id == src.id) && isRelated src t))
      = ((allTerms db).filter (fun t =>
          decide (t.id ≠ src.id ∧ ((∃ tag ∈ t.tags, tag ∈ src.tags) ∨
            ∃ r ∈ src.relatedTerms, SubstringOf r t.name)))) :=
    List.filter_congr (fun t _ => hpred t)
  refine ⟨?_, ?_, ?_, by rw [hrel, hfil]⟩
  · rw [hrel]
    simp only [List.length_take]
    omega
  · intro hmem
    rw [hrel] at hmem
    have h1 := List.mem_of_mem_take hmem
    rw [List.mem_filter] at h1
    simp at h1
  · intro t ht
    rw [hrel] at ht
    have h1 := List.mem_of_mem_take ht
    rw [List.mem_filter, hpred t, decide_eq_true_eq] at h1
    obtain ⟨-, hid, hcond⟩ := h1
    exact ⟨fun heq => hid (by rw [heq]), hid, hcond⟩

theorem c4_witness :
    (relatedOf exCatalog termClosure).length ≤ 5 ∧
    termClosure ∉ relatedOf exCatalog termClosure :=
  ⟨(c4_relatedness_resolver exCatalog "a1" termClosure (by decide)).1,
    (c4_relatedness_resolver exCatalog "a1" termClosure (by decide)).2.1⟩

/-- C10: for a term id found in AllTerms, the detail response carries every
field of the source record unchanged except `relatedTerms`, which is
overwritten by the `{id, name, chinese}` projections of the matched
related terms — the original hint strings do not appear in the response. -/
theorem c10_detail_overwrites_hints (db : Database) (tid : String) (src : Term)
    (h : findTerm db tid = some src) :
    getTermDetail db tid = some
      { id := src.id
        name := src.name
        chinese := src.chinese
        description := src.description
        difficulty := src.difficulty
        tags := src.tags
        exampleCode := src.exampleCode
        useCases := src.useCases
        relatedTerms := (relatedOf db src).map (fun t => ⟨t.id, t.name, t.chinese⟩) } := by
  unfold getTermDetail
  rw [h]
  rfl

theorem c10_witness :
    getTermDetail exCatalog "a1" = some
      { id := termClosure.id
        name := termClosure.name
        chinese := termClosure.chinese
        description := termClosure.description
        difficulty := termClosure.difficulty
        tags := termClosure.tags
        exampleCode := termClosure.exampleCode
        useCases := termClosure.useCases
        relatedTerms := (relatedOf exCatalog termClosure).map
          (fun t => ⟨t.id, t.name, t.chinese⟩) } :=
  c10_detail_overwrites_hints exCatalog "a1" termClosure (by decide)

/-- C5 (amended: the empty-result edge holds at `count = 0` only — a
negative count reaches JS `slice`'s end-relative indexing and keeps all
but the last `|count|` entries — and the no-duplicate-id guarantee needs
the documented id-uniqueness invariant, which the shipped data violates
for `ds_1`/`ds_2`; see `c5_counterexample`): for any shuffle that is a
permutation of AllTerms, `count = 0` gives the empty result, `count > 0`
gives `min(count, totalTerms)` terms, `count ≥ totalTerms` returns the
entire shuffled catalog, `count < 0` keeps `totalTerms + count` entries,
and distinct catalog ids make the sample's ids distinct. -/
theorem c5_sampler_contract (db : Database) (shuffled : List Term) (count : Int)
    (h : List.Perm shuffled (allTerms db)) :
    randomSample shuffled 0 = [] ∧
    (0 < count → ((randomSample shuffled count).length : Int)
        = min count ((allTerms db).length : Int)) ∧
    (((allTerms db).length : Int) ≤ count → randomSample shuffled count = shuffled) ∧
    (count < 0 → ((randomSample shuffled count).length : Int)
        = max 0 (((allTerms db).length : Int) + count)) ∧
    (((allTerms db).map Term.id).Nodup →
      ((randomSample shuffled count).map Term.id).Nodup) := by
  have hlen := h.length_eq
  refine ⟨?_, ?_, ?_, ?_, ?_⟩
  · show jsSlice shuffled 0 0 = []
    rw [jsSlice_zero_nonneg _ _ le_rfl]
    rfl
  · intro hc
    show ((jsSlice shuffled 0 count).length : Int) = _
    rw [jsSlice_length_nonneg _ _ _ le_rfl (by omega)]
    omega
  · intro hc
    exact jsSlice_zero_big _ _ (by omega)
  · intro hc
    have hneg := jsSlice_zero_neg shuffled count hc
    show ((jsSlice shuffled 0 count).length : Int) = _
    omega
  · intro hnd
    have h1 : List.Sublist (randomSample shuffled count) shuffled :=
      jsSlice_sublist _ _ _
    have h2 : List.Sublist ((randomSample shuffled count).map Term.id)
        (shuffled.map Term.id) := h1.map _
    have h3 : (shuffled.map Term.id).Nodup := ((h.map Term.id).nodup_iff).mpr hnd
    exact h3.sublist h2

theorem c5_witness :
    randomSample (allTerms exCatalog) 0 = [] ∧
    ((randomSample (allTerms exCatalog) 2).length : Int)
      = min (2 : Int) ((allTerms exCatalog).length : Int) :=
  ⟨(c5_sampler_contract exCatalog (allTerms exCatalog) 0 (List.Perm.refl _)).1,
    (c5_sampler_contract exCatalog (allTerms exCatalog) 2 (List.Perm.refl _)).2.1
      (by decide)⟩

/-- C5, refutation of the claim as stated, on a verbatim extract of the
shipped catalog (both records carry the id `ds_1`): with the identity
shuffle — a possible outcome of the comparator-based shuffle —
`count = -1` returns a non-empty result instead of an empty one, and
`count = totalTerms` returns two entries with the same id. -/
theorem c5_counterexample :
    randomSample (allTerms dupCatalog) (-1) ≠ [] ∧
    ¬ ((randomSample (allTerms dupCatalog)
        ((allTerms dupCatalog).length : Int)).map Term.id).Nodup := by
  decide
